import Mathlib

/-
Shallow embedding of two source files of the docarray repository:

  * docarray/index/backends/redis.py  (RedisDocumentIndex: query builder,
    execute_query, hybrid search, index creation, fetch-by-id)
  * docarray/base_document/document.py (BaseDocument.__setattr__ for
    documents bound into a stacked column store)

Pure functions of the source become Lean functions; the Redis client is a
function parameter (the backend transport is a black box per the spec);
Python exceptions become an explicit error type.  Opaque payloads (JSON
document bodies, floating point scores) are modelled by Strings and Ints:
none of the claims checked here depend on their internal structure.
-/

deriving instance DecidableEq for Except

namespace Docarray

/-- Errors raised by the modelled code paths.  Python exception classes are
mapped to constructors; messages are carried verbatim where a claim talks
about them. -/
inductive Err where
  | validationError
  | shapeMismatch
  | indexError
  | notComposable (method : String)
  | valueError (msg : String)
  | keyError (msg : String)
deriving DecidableEq, Repr

/- ----------------------------------------------------------------
   Query builder (redis.py, class QueryBuilder)
   ---------------------------------------------------------------- -/

/-- Keyword arguments collected by a query-builder method.  Python passes a
dict; the fields used by `execute_query` are `query` (the query vector),
`search_field`, `filter_query` and the optional `limit`. -/
structure FragArgs where
  query : List Int := []
  search_field : String := ""
  filter_query : String := ""
  limit : Option Nat := none
deriving DecidableEq, Repr

/-- Builder state: the ordered list of (method name, kwargs) pairs held in
`self._queries` (redis.py lines 168-176). -/
structure QueryBuilderS where
  queries : List (String × FragArgs)
deriving DecidableEq, Repr

/-- Modelled from the spec: `_collect_query_args` lives in
docarray/index/backends/helper.py, which is not under src/.  Spec 4.3: a
builder method "accumulates QueryFragments ... returning a new builder state
(append-only, no execution)".  The method appends (method name, kwargs) and
never fails. -/
def collectQueryArgs (method : String) (qb : QueryBuilderS) (kw : FragArgs) :
    Except Err QueryBuilderS :=
  .ok ⟨qb.queries ++ [(method, kw)]⟩

/-- Modelled from the spec: `_raise_not_composable` lives in
docarray/index/abstract.py, which is not under src/.  Spec 4.3: a
non-composable builder method "fails ... with NotComposableError, naming the
offending fragment kind".  The method fails on invocation without touching
the builder state. -/
def raiseNotComposable (method : String) (_qb : QueryBuilderS) (_kw : FragArgs) :
    Except Err QueryBuilderS :=
  .error (.notComposable method)

/-- redis.py line 178: `find = _collect_query_args('find')`. -/
def qbFind : QueryBuilderS → FragArgs → Except Err QueryBuilderS :=
  collectQueryArgs "find"

/-- redis.py line 179: `filter = _collect_query_args('filter')`. -/
def qbFilter : QueryBuilderS → FragArgs → Except Err QueryBuilderS :=
  collectQueryArgs "filter"

/-- redis.py line 180: `text_search = _raise_not_composable('text_search')`. -/
def qbTextSearch : QueryBuilderS → FragArgs → Except Err QueryBuilderS :=
  raiseNotComposable "text_search"

/-- redis.py lines 174-176: `build` returns `self._queries` unchanged. -/
def build (qb : QueryBuilderS) : List (String × FragArgs) :=
  qb.queries

/- ----------------------------------------------------------------
   Hybrid search and find (redis.py, _hybrid_search / _find)
   ---------------------------------------------------------------- -/

/-- The native Redis query object assembled by `_hybrid_search`
(redis.py lines 415-420): query string, sort key, paging and dialect. -/
structure RedisQuery where
  qstring : String
  sortKeyOf : Option String
  pagingOffset : Nat
  pagingNum : Nat
  dialect : Nat
deriving DecidableEq, Repr

/-- One raw result row returned by the Redis client: the `vector_score`
value and the JSON body.  Scores and bodies are opaque payloads here. -/
structure RDoc where
  vector_score : Int
  json : String
deriving DecidableEq, Repr

/-- The backend transport: `self._client.ft(...).search(query, params).docs`.
The params mapping binds `vec` to the raw bytes of the query vector; the
bytes are modelled by the vector itself. -/
def RedisClient : Type := RedisQuery → List Int → List RDoc

/-- Result of a search: parsed document bodies together with their scores
(`FindResult` / `_FindResult` in the source).  JSON parsing of the opaque
body is modelled as the identity. -/
structure FindResultS where
  documents : List String
  scores : List Int
deriving DecidableEq, Repr

/-- redis.py lines 403-438, `_hybrid_search`: build the query string
`{filter_query}=>[KNN {limit} @{search_field} $vec AS vector_score]`,
sort by `vector_score`, page `(0, limit)`, dialect 2, run it on the client
and collect scores and parsed bodies. -/
def hybridSearch (client : RedisClient) (query : List Int)
    (filter_query : String) (search_field : String) (limit : Nat) :
    FindResultS :=
  let redis_query : RedisQuery :=
    { qstring := filter_query ++ "=>[KNN " ++ toString limit ++ " @" ++
        search_field ++ " $vec AS vector_score]"
      sortKeyOf := some "vector_score"
      pagingOffset := 0
      pagingNum := limit
      dialect := 2 }
  let results := client redis_query query
  { documents := results.map (fun d => d.json)
    scores := results.map (fun d => d.vector_score) }

/-- redis.py lines 440-453, `_find`: a pure vector search delegates to
`_hybrid_search` with the match-all filter `*`. -/
def findOp (client : RedisClient) (query : List Int) (limit : Nat)
    (search_field : String) : FindResultS :=
  hybridSearch client query "*" search_field limit

/- ----------------------------------------------------------------
   execute_query (redis.py lines 364-401)
   ---------------------------------------------------------------- -/

/-- Distinct component keys of the query, in insertion order: mirrors the
keys of the `components` dict built in execute_query lines 371-375. -/
def keysOf (q : List (String × FragArgs)) : List String :=
  q.foldl (fun ks p => if p.1 ∈ ks then ks else ks ++ [p.1]) []

/-- All kwargs collected under one component key, in insertion order:
mirrors `components.get(k, [])`. -/
def getComp (q : List (String × FragArgs)) (k : String) : List FragArgs :=
  (q.filter (fun p => p.1 = k)).map (fun p => p.2)

/-- Python truthiness of an optional integer: `None` and `0` are falsy. -/
def pyTruthy : Option Nat → Bool
  | none => false
  | some n => n ≠ 0

/-- redis.py lines 389-393: `limit = find.get('limit') or
filter.get('limit') or 10`, with Python `or` testing truthiness. -/
def resolvedLimit (findL filterL : Option Nat) : Nat :=
  if pyTruthy findL then findL.getD 0
  else if pyTruthy filterL then filterL.getD 0
  else 10

/-- The message of the ValueError raised by execute_query on a bad query
shape (redis.py lines 382-384). -/
def theQueryShapeMsg : String :=
  "The query must contain exactly one \"find\" and \"filter\" components."

/-- Modelled from the spec: `_dict_list_to_docarray` lives in
docarray/index/abstract.py, which is not under src/.  Spec 4.4: raw backend
rows are decoded into owned document views; with opaque bodies the decoding
is the identity on the list. -/
def dictListToDocarray (docs : List String) : List String :=
  docs

/-- redis.py lines 364-401, `execute_query`: group the fragments by method
name, require exactly one `find` and one `filter` component and no other
component kind, resolve the limit by truthiness, run the hybrid search and
wrap the result. -/
def executeQuery (client : RedisClient) (q : List (String × FragArgs)) :
    Except Err FindResultS :=
  if (keysOf q).length ≠ 2 ∨ (getComp q "find").length ≠ 1 ∨
      (getComp q "filter").length ≠ 1 then
    .error (.valueError theQueryShapeMsg)
  else
    let findA := (getComp q "find").getD 0 {}
    let filterA := (getComp q "filter").getD 0 {}
    let limit := resolvedLimit findA.limit filterA.limit
    let r := hybridSearch client findA.query filterA.filter_query
      findA.search_field limit
    .ok { documents := dictListToDocarray r.documents, scores := r.scores }

/-- Spec-side limit resolution, written from the words of the claim: the
first fragment in declared-precedence order (Find before Filter) that
carries an explicit limit wins; if none carries one, the default 10
applies.  Kept separate from `resolvedLimit` (the code's rule) so the two
can be compared. -/
def claimFirstExplicitLimit (findL filterL : Option Nat) : Nat :=
  match findL with
  | some n => n
  | none =>
    match filterL with
    | some m => m
    | none => 10

/-- Spec-side limit resolution as amended: the first fragment in
declared-precedence order that carries an explicit non-zero limit wins; an
explicit limit of 0 is treated like an absent one; default 10. -/
def amendedLimit (findL filterL : Option Nat) : Nat :=
  match findL with
  | some n =>
    if n ≠ 0 then n
    else
      match filterL with
      | some m => if m ≠ 0 then m else 10
      | none => 10
  | none =>
    match filterL with
    | some m => if m ≠ 0 then m else 10
    | none => 10

/- ----------------------------------------------------------------
   Fetch-by-id (redis.py lines 342-362, _get_items)
   ---------------------------------------------------------------- -/

/-- Python repr of a list of strings, as interpolated into the KeyError
message by `f'No document with id {doc_ids} found'`. -/
def pyStrListRepr (ids : List String) : String :=
  "[" ++ String.intercalate ", "
    (ids.map (fun s => "\x27" ++ s ++ "\x27")) ++ "]"

/-- The key fetched for a document id: `self._prefix + id`. -/
def docKey (keyPre : String) (id : String) : String :=
  keyPre ++ id

/-- redis.py lines 342-362, `_get_items`.  The client's `json().get` is the
function argument `get` (returning `none` for a missing key); `keyPre` is
`self._prefix`.  The first component of the result is the list of keys
actually queried on the backend (empty input returns before any call); the
second is the outcome: found documents in request order with missing ids
omitted, or a KeyError naming the requested ids when nothing was found. -/
def getItems (get : String → Option String) (keyPre : String)
    (doc_ids : List String) : List String × Except Err (List String) :=
  if doc_ids.isEmpty then ([], .ok [])
  else
    let docs := doc_ids.filterMap (fun id => get (docKey keyPre id))
    (doc_ids.map (docKey keyPre),
      if docs.length = 0 then
        .error (.keyError ("No document with id " ++ pyStrListRepr doc_ids ++
          " found"))
      else .ok docs)

/- ----------------------------------------------------------------
   Index creation (redis.py lines 97-151, _create_index)
   ---------------------------------------------------------------- -/

/-- redis.py line 59. -/
def VALID_DISTANCES : List String := ["L2", "IP", "COSINE"]

/-- redis.py line 60. -/
def VALID_ALGORITHMS : List String := ["FLAT", "HNSW"]

/-- The Redis column classes a column can map to (redis.py imports
NumericField, TextField, VectorField). -/
inductive DBType where
  | VectorFieldT
  | TextFieldT
  | NumericFieldT
deriving DecidableEq, Repr

/-- The per-column configuration dict (`info.config`); keys read by
`_create_index`.  `algorithm` is accessed with `config['algorithm']` and is
always present in the default column config, so it is a plain field. -/
structure ColConfig where
  space : Option String := none
  distance : Option String := none
  dim : Option Nat := none
  ef_construction : Option Nat := none
  ef_runtime : Option Nat := none
  m : Option Nat := none
  initial_cap : Option Nat := none
  algorithm : String := "FLAT"
deriving DecidableEq, Repr

/-- One entry of `self._column_infos`: the Redis column class, the static
dimensionality and the config dict. -/
structure ColumnInfo where
  db_type : DBType
  n_dim : Option Nat := none
  config : ColConfig := {}
deriving DecidableEq, Repr

/-- Python `str.upper()`: uppercase every character.  (Lean's own
`String.toUpper` is defined through `String.mapAux`, which does not reduce
definitionally; this list-based form does, and agrees with it.) -/
def pyUpper (s : String) : String :=
  ⟨s.data.map Char.toUpper⟩

/-- Python `a or b` on optional strings: an absent or empty string is falsy
and falls through to the second operand. -/
def pyOrStr (a b : Option String) : Option String :=
  match a with
  | some s => if s ≠ "" then some s else b
  | none => b

/-- Python `a or b` on optional integers: absent and 0 are falsy. -/
def pyOrNat (a b : Option Nat) : Option Nat :=
  match a with
  | some n => if n ≠ 0 then some n else b
  | none => b

/-- A value in the `attributes` dict of a vector field spec. -/
inductive AttrV where
  | s (v : String)
  | n (v : Nat)
deriving DecidableEq, Repr

/-- Python truthiness of an attribute value: empty string and 0 are falsy. -/
def attrTruthy : AttrV → Bool
  | .s v => v ≠ ""
  | .n v => v ≠ 0

/-- redis.py lines 110-121: the attributes dict of a vector field, in
insertion order, with falsy-valued entries dropped by the comprehension
`{name: value for name, value in attributes.items() if value}`. -/
def mkAttributes (space : String) (info : ColumnInfo) :
    List (String × AttrV) :=
  ([("TYPE", some (AttrV.s "FLOAT32")),
    ("DIM", (pyOrNat info.n_dim info.config.dim).map AttrV.n),
    ("DISTANCE_METRIC", some (AttrV.s space)),
    ("EF_CONSTRUCTION", info.config.ef_construction.map AttrV.n),
    ("EF_RUNTIME", info.config.ef_runtime.map AttrV.n),
    ("M", info.config.m.map AttrV.n),
    ("INITIAL_CAP", info.config.initial_cap.map AttrV.n)]).filterMap
    (fun p =>
      match p.2 with
      | some v => if attrTruthy v then some (p.1, v) else none
      | none => none)

/-- One backend field spec emitted into the schema list. -/
inductive FieldSpec where
  | vector (path : String) (algorithm : String)
      (attributes : List (String × AttrV)) (asName : String)
  | scalar (dbType : DBType) (path : String) (asName : String)
deriving DecidableEq, Repr

/-- Wrap a string in single quotes, as Python f-strings do in the error
messages of `_create_index`. -/
def pyQuote (s : String) : String :=
  "\x27" ++ s ++ "\x27"

/-- redis.py lines 100-137: the schema-building loop of `_create_index`.
Vector columns resolve the metric as `config.get('space') or
config.get('distance')`, upper-case it and validate it against
VALID_DISTANCES, build the attributes dict, upper-case and validate the
algorithm, and emit a vector field spec; other columns emit a plain field
spec.  Calling `.upper()` on a missing metric is Python's AttributeError. -/
def createIndexSchema : List (String × ColumnInfo) →
    Except String (List FieldSpec)
  | [] => .ok []
  | (column, info) :: rest =>
    if info.db_type = DBType.VectorFieldT then
      match pyOrStr info.config.space info.config.distance with
      | none =>
        .error "AttributeError: \x27NoneType\x27 object has no attribute \x27upper\x27"
      | some sp =>
        let space := pyUpper sp
        if space ∉ VALID_DISTANCES then
          .error ("Invalid distance metric " ++ pyQuote space ++
            " provided. Must be one of: " ++
            String.intercalate ", " VALID_DISTANCES)
        else
          let attributes := mkAttributes space info
          let algorithm := pyUpper info.config.algorithm
          if algorithm ∉ VALID_ALGORITHMS then
            .error ("Invalid algorithm " ++ pyQuote algorithm ++
              " provided. Must be one of: " ++
              String.intercalate ", " VALID_ALGORITHMS)
          else
            (createIndexSchema rest).map
              (fun s => FieldSpec.vector ("$." ++ column) algorithm
                attributes column :: s)
    else
      (createIndexSchema rest).map
        (fun s => FieldSpec.scalar info.db_type ("$." ++ column) column :: s)

/-- redis.py lines 97-151, `_create_index`.  `indexExists` is the result of
the `_check_index_exists` probe.  When the index already exists nothing is
built or sent (`.ok none`); otherwise the schema is built column by column
and, only if every column validates, the single backend create-index call
is issued with the full schema (`.ok (some schema)`).  A validation error
aborts before that call: an `.error` outcome carries no schema, so no
backend index creation happens. -/
def createIndex (indexExists : Bool) (cols : List (String × ColumnInfo)) :
    Except String (Option (List FieldSpec)) :=
  if indexExists then .ok none
  else (createIndexSchema cols).map some

/-- A vector column configured with the lowercase metric "cosine"
(the default column config carries `distance`, not `space`). -/
def cosineCol : ColumnInfo :=
  { db_type := DBType.VectorFieldT
    n_dim := some 4
    config := { distance := some "cosine" } }

/-- A vector column configured with the unsupported metric "MANHATTAN". -/
def manhattanCol : ColumnInfo :=
  { db_type := DBType.VectorFieldT
    n_dim := some 4
    config := { distance := some "MANHATTAN" } }

/- ----------------------------------------------------------------
   Bound document views over a stacked column store
   (document.py lines 86-137, BaseDocument.__setattr__)
   ---------------------------------------------------------------- -/

/-- Semantic kind of a schema field, as the branches of `__setattr__`
distinguish them: mutable tensor (`is_type_tensor` / `is_tensor_union`),
nested document (`issubclass(field_type, BaseDocument)`), or anything else.
TensorFlow tensors (the immutable branch) need `tf_available` and are not
modelled. -/
inductive FieldKind where
  | tensorK
  | docK
  | plainK
deriving DecidableEq, Repr

/-- A tensor payload: a flat buffer of entries.  Its shape is the length of
the data; NumPy broadcasting of singleton shapes is not modelled, so the
in-place slice assignment `old[:] = new` succeeds exactly when the two
lengths agree. -/
structure TensorVal where
  data : List Int
deriving DecidableEq, Repr

/-- A raw value assigned to a field.  Nested documents and plain values are
opaque payloads. -/
inductive RawValue where
  | tensorV (t : TensorVal)
  | docV (d : String)
  | plainV (s : String)
deriving DecidableEq, Repr

/-- Modelled from the spec: the stacked store (`DocumentArrayStacked`, not
under src/).  Spec 3 and 4.2: the store owns per-field buffers for a batch
of N documents.  Tensor buffers live in an explicit heap of buffers so that
aliasing between a view's attribute and a column row is observable:
`tensorCols f i` is the address of the buffer backing row `i` of tensor
column `f`, `docCols f` is the nested-document column, and `plainRows f i`
is the plain-field slot of document `i` (the document object itself is the
storage for plain fields). -/
structure StackedStore where
  heap : List TensorVal
  tensorCols : String → Nat → Nat
  docCols : String → List String
  plainRows : String → Nat → String

/-- A document view bound into a store at row `idx` (document.py:
`_da_ref`/`_da_index` are set).  `tAttr f` is the heap address held by the
view's tensor attribute `f`; `dAttr f` the nested document held by
attribute `f`; plain attributes are the document's own storage, i.e.
`store.plainRows f idx`. -/
structure ViewState where
  store : StackedStore
  idx : Nat
  tAttr : String → Nat
  dAttr : String → String

/-- Pointwise update of a function at one key. -/
def updF {α : Type} (g : String → α) (f : String) (a : α) : String → α :=
  fun x => if x = f then a else g x

/-- Outcome of `__setattr__`: Python exceptions leave the mutations already
performed in place, so the state after the call is returned in the error
case as well. -/
inductive SetResult where
  | ok (st : ViewState)
  | err (e : Err) (st : ViewState)

/-- Attribute read on a bound view: tensor attributes dereference the heap
buffer they hold, nested-document and plain attributes return the stored
value. -/
def getattrStacked (schema : String → FieldKind) (st : ViewState)
    (f : String) : RawValue :=
  match schema f with
  | .tensorK => .tensorV (st.store.heap.getD (st.tAttr f) ⟨[]⟩)
  | .docK => .docV (st.dAttr f)
  | .plainK => .plainV (st.store.plainRows f st.idx)

/-- Column read in the store: row `i` of column `f` as the spec's
`store.columns[field][i]`. -/
def readColumn (schema : String → FieldKind) (s : StackedStore) (f : String)
    (i : Nat) : RawValue :=
  match schema f with
  | .tensorK => .tensorV (s.heap.getD (s.tensorCols f i) ⟨[]⟩)
  | .docK => .docV ((s.docCols f).getD i "")
  | .plainK => .plainV (s.plainRows f i)

/-- Modelled from the spec: `bind(store, index)` (spec 4.2; the binding is
established by `DocumentArrayStacked`, not under src/).  Field access of a
fresh bound view delegates to the column slots: the tensor attribute holds
the column row's buffer address, the nested-document attribute holds the
column entry. -/
def bindView (s : StackedStore) (i : Nat) : ViewState :=
  { store := s
    idx := i
    tAttr := fun f => s.tensorCols f i
    dAttr := fun f => (s.docCols f).getD i "" }

/-- Pydantic assignment validation (`validate_assignment = True`): the value
must fit the declared field type.  Coercions are the identity here: a value
of the field's kind validates to itself, anything else raises. -/
def validateAssignment (k : FieldKind) (v : RawValue) : Except Err RawValue :=
  match k, v with
  | .tensorK, .tensorV t => .ok (.tensorV t)
  | .docK, .docV d => .ok (.docV d)
  | .plainK, .plainV s => .ok (.plainV s)
  | _, _ => .error .validationError

/-- Indexed assignment into a nested-document column
(`_doc_columns[name][index] = new_value`): fails with IndexError when the
row is out of range. -/
def docColSet (col : List String) (i : Nat) (d : String) :
    Option (List String) :=
  if i < col.length then some (col.set i d) else none

/-- NumPy one-dimensional slice assignment `old[:] = new`
(document.py line 113).  The new data is copied elementwise when the two
lengths agree; a singleton value broadcasts, filling the whole buffer with
its element; any other length raises (could not broadcast).  The returned
value is what the buffer holds after a successful assignment. -/
def npBroadcastAssign (old new : TensorVal) : Option TensorVal :=
  if new.data.length = old.data.length then some new
  else if new.data.length = 1 then
    some { data := List.replicate old.data.length (new.data.getD 0 0) }
  else none

/-- document.py lines 86-137, `__setattr__` on a bound view
(`self._da_ref is not None`, `name in self.__fields__`).

Tensor branch (lines 104-122): read the old attribute (a buffer
reference), let pydantic validate and set the attribute to the new value,
re-read it, then force the update in place with `old_value[:] = new_value`
(NumPy semantics, including singleton broadcast: `npBroadcastAssign`);
on success rebind the attribute to the old buffer, on failure restore the
attribute to the old buffer and re-raise.

Nested-document branch (lines 124-135): validate and set the attribute,
write the new value into the store's document column at the view's index,
restoring the attribute and re-raising on failure; afterwards execution
falls through to the final `super().__setattr__` (line 137), which
revalidates the same value and leaves the attribute unchanged.

Plain branch: only the final `super().__setattr__` (line 137) runs. -/
def setattrStacked (schema : String → FieldKind) (st : ViewState)
    (f : String) (v : RawValue) : SetResult :=
  match schema f with
  | .tensorK =>
    match validateAssignment .tensorK v with
    | .error e => .err e st
    | .ok _ =>
      match v with
      | .tensorV t =>
        let oldA := st.tAttr f
        let oldBuf := st.store.heap.getD oldA ⟨[]⟩
        let newA := st.store.heap.length
        let st1 : ViewState :=
          { st with
            store := { st.store with heap := st.store.heap ++ [t] }
            tAttr := updF st.tAttr f newA }
        match npBroadcastAssign oldBuf t with
        | some res =>
          .ok { st1 with
            store := { st1.store with heap := st1.store.heap.set oldA res }
            tAttr := updF st1.tAttr f oldA }
        | none =>
          .err .shapeMismatch { st1 with tAttr := updF st1.tAttr f oldA }
      | _ => .err .validationError st
  | .docK =>
    match validateAssignment .docK v with
    | .error e => .err e st
    | .ok _ =>
      match v with
      | .docV d =>
        let old := st.dAttr f
        let st1 : ViewState := { st with dAttr := updF st.dAttr f d }
        match docColSet (st1.store.docCols f) st1.idx d with
        | some newCol =>
          .ok { st1 with
            store :=
              { st1.store with docCols := updF st1.store.docCols f newCol }
            dAttr := updF st1.dAttr f d }
        | none => .err .indexError { st1 with dAttr := updF st1.dAttr f old }
      | _ => .err .validationError st
  | .plainK =>
    match validateAssignment .plainK v with
    | .error e => .err e st
    | .ok _ =>
      match v with
      | .plainV s =>
        .ok { st with
          store :=
            { st.store with
              plainRows := fun f2 i2 =>
                if f2 = f ∧ i2 = st.idx then s else st.store.plainRows f2 i2 } }
      | _ => .err .validationError st

/-- A small store used as a concrete instance: one tensor column whose
row 0 is buffer 0 holding [1, 2], one nested-document column with one row,
and plain rows. -/
def sampleStore : StackedStore :=
  { heap := [{ data := [1, 2] }]
    tensorCols := fun _ _ => 0
    docCols := fun _ => ["olddoc"]
    plainRows := fun _ _ => "oldplain" }

/-- The view bound at row 0 of `sampleStore`, with attributes aliasing the
column slots as stacking establishes them. -/
def sampleView : ViewState :=
  { store := sampleStore
    idx := 0
    tAttr := fun _ => 0
    dAttr := fun _ => "olddoc" }

/-- A schema with one field of each kind. -/
def sampleSchema : String → FieldKind :=
  fun f => if f = "t" then .tensorK else if f = "d" then .docK else .plainK

/- ----------------------------------------------------------------
   Helper lemmas
   ---------------------------------------------------------------- -/

theorem listGetD_set {α : Type} (l : List α) (n : Nat) (a d : α)
    (h : n < l.length) : (l.set n a).getD n d = a := by
  induction l generalizing n with
  | nil => simp at h
  | cons x t ih =>
    cases n with
    | zero => rfl
    | succ m =>
      simp only [List.length_cons] at h
      exact ih m (Nat.lt_of_succ_lt_succ h)

theorem keysAux_mem (q : List (String × FragArgs)) (acc : List String)
    (k : String) :
    k ∈ q.foldl (fun ks p => if p.1 ∈ ks then ks else ks ++ [p.1]) acc ↔
      k ∈ acc ∨ ∃ v, (k, v) ∈ q := by
  induction q generalizing acc with
  | nil => simp
  | cons p t ih =>
    obtain ⟨pk, pv⟩ := p
    simp only [List.foldl_cons, ih, List.mem_cons, Prod.mk.injEq]
    by_cases hp : pk ∈ acc
    · simp only [hp, if_true]
      constructor
      · rintro (hk | ⟨v, hv⟩)
        · exact Or.inl hk
        · exact Or.inr ⟨v, Or.inr hv⟩
      · rintro (hk | ⟨v, ⟨rfl, rfl⟩ | hv⟩)
        · exact Or.inl hk
        · exact Or.inl hp
        · exact Or.inr ⟨v, hv⟩
    · simp only [hp, if_false]
      constructor
      · rintro (hk | ⟨v, hv⟩)
        · rcases List.mem_append.mp hk with h | h
          · exact Or.inl h
          · have hk2 : k = pk := by simpa using h
            exact Or.inr ⟨pv, Or.inl ⟨hk2, rfl⟩⟩
        · exact Or.inr ⟨v, Or.inr hv⟩
      · rintro (hk | ⟨v, ⟨rfl, rfl⟩ | hv⟩)
        · exact Or.inl (List.mem_append.mpr (Or.inl hk))
        · exact Or.inl (List.mem_append.mpr (Or.inr (by simp)))
        · exact Or.inr ⟨v, hv⟩

theorem keysOf_mem (q : List (String × FragArgs)) (k : String) :
    k ∈ keysOf q ↔ ∃ v, (k, v) ∈ q := by
  simpa using keysAux_mem q [] k

theorem keysAux_nodup (q : List (String × FragArgs)) (acc : List String)
    (h : acc.Nodup) :
    (q.foldl (fun ks p => if p.1 ∈ ks then ks else ks ++ [p.1]) acc).Nodup := by
  induction q generalizing acc with
  | nil => simpa
  | cons p t ih =>
    simp only [List.foldl_cons]
    apply ih
    by_cases hp : p.1 ∈ acc
    · simpa [hp]
    · simp [hp, List.nodup_append, h]

theorem keysOf_nodup (q : List (String × FragArgs)) : (keysOf q).Nodup :=
  keysAux_nodup q [] List.nodup_nil

theorem getComp_exists_of_length_pos (q : List (String × FragArgs))
    (k : String) (h : 0 < (getComp q k).length) :
    ∃ v, (k, v) ∈ q := by
  unfold getComp at h
  rw [List.length_map] at h
  obtain ⟨p, hp⟩ := List.exists_mem_of_ne_nil _ (List.ne_nil_of_length_pos h)
  rw [List.mem_filter] at hp
  obtain ⟨hpq, hpk⟩ := hp
  have hk : p.1 = k := by simpa using hpk
  exact ⟨p.2, by rw [← hk]; exact hpq⟩

theorem mem_keysOf_of_mem (q : List (String × FragArgs))
    (p : String × FragArgs) (h : p ∈ q) : p.1 ∈ keysOf q :=
  (keysOf_mem q p.1).mpr ⟨p.2, h⟩

theorem nodup_two_mem_char {l : List String} {a b : String} (hnd : l.Nodup)
    (hl : l.length = 2) (ha : a ∈ l) (hb : b ∈ l) (hab : a ≠ b) :
    ∀ x ∈ l, x = a ∨ x = b := by
  obtain ⟨u, v, rfl⟩ := List.length_eq_two.mp hl
  simp only [List.mem_cons, List.mem_singleton, List.not_mem_nil, or_false] at ha hb ⊢
  rintro x (rfl | rfl) <;>
    rcases ha with rfl | rfl <;> rcases hb with rfl | rfl <;> tauto

theorem nodup_two_mem_length {l : List String} {a b : String} (hnd : l.Nodup)
    (ha : a ∈ l) (hb : b ∈ l) (hab : a ≠ b)
    (hsub : ∀ x ∈ l, x = a ∨ x = b) : l.length = 2 := by
  have h1 : List.Subperm l [a, b] := by
    apply hnd.subperm
    intro x hx
    rcases hsub x hx with rfl | rfl <;> simp
  have h2 : List.Subperm [a, b] l := by
    apply List.Nodup.subperm
    · simp [hab]
    · intro x hx
      simp only [List.mem_cons, List.not_mem_nil, or_false] at hx
      rcases hx with rfl | rfl
      · exact ha
      · exact hb
  have hle := h1.length_le
  have hge := h2.length_le
  have e : ([a, b] : List String).length = 2 := rfl
  rw [e] at hle hge
  omega

theorem resolvedLimit_eq_amendedLimit (a b : Option Nat) :
    resolvedLimit a b = amendedLimit a b := by
  rcases a with _ | n <;> rcases b with _ | m
  · rfl
  · by_cases hm : m = 0 <;> simp [resolvedLimit, amendedLimit, pyTruthy, hm]
  · by_cases hn : n = 0 <;> simp [resolvedLimit, amendedLimit, pyTruthy, hn]
  · by_cases hn : n = 0 <;> by_cases hm : m = 0 <;>
      simp [resolvedLimit, amendedLimit, pyTruthy, hn, hm]

theorem executeQuery_decompose (client : RedisClient)
    (q : List (String × FragArgs)) (fA flA : FragArgs)
    (h1 : getComp q "find" = [fA]) (h2 : getComp q "filter" = [flA])
    (h3 : (keysOf q).length = 2) :
    executeQuery client q = .ok
      { documents := dictListToDocarray (hybridSearch client fA.query
          flA.filter_query fA.search_field
          (resolvedLimit fA.limit flA.limit)).documents
        scores := (hybridSearch client fA.query flA.filter_query
          fA.search_field (resolvedLimit fA.limit flA.limit)).scores } := by
  unfold executeQuery
  rw [if_neg]
  · rw [h1, h2]
    rfl
  · simp [h1, h2, h3]

theorem executeQuery_err_of_two_find (client : RedisClient)
    (q : List (String × FragArgs)) (h : 2 ≤ (getComp q "find").length) :
    executeQuery client q = .error (.valueError theQueryShapeMsg) := by
  unfold executeQuery
  rw [if_pos]
  exact Or.inr (Or.inl (by omega))

/- ----------------------------------------------------------------
   Claim theorems
   ---------------------------------------------------------------- -/

/-- Claim C1, counterexample.  The claim says that building a query with two
Find fragments on the Redis backend fails at build time with
NotComposableError.  On the code, both calls to the builder's `find` succeed,
`build` succeeds and returns both fragments in order (nothing is dropped or
overwritten), and the failure only surfaces when `execute_query` runs,
as a ValueError: build time succeeds, so the claim is false at this input. -/
theorem C1_counterexample :
    qbFind ⟨[]⟩ { query := [1], search_field := "emb", limit := some 3 } =
      .ok ⟨[("find", { query := [1], search_field := "emb", limit := some 3 })]⟩
    ∧ qbFind ⟨[("find", { query := [1], search_field := "emb", limit := some 3 })]⟩
        { query := [2], search_field := "emb", limit := some 4 } =
      .ok ⟨[("find", { query := [1], search_field := "emb", limit := some 3 }),
            ("find", { query := [2], search_field := "emb", limit := some 4 })]⟩
    ∧ build ⟨[("find", { query := [1], search_field := "emb", limit := some 3 }),
              ("find", { query := [2], search_field := "emb", limit := some 4 })]⟩ =
        [("find", { query := [1], search_field := "emb", limit := some 3 }),
         ("find", { query := [2], search_field := "emb", limit := some 4 })]
    ∧ executeQuery (fun _ _ => [])
        [("find", { query := [1], search_field := "emb", limit := some 3 }),
         ("find", { query := [2], search_field := "emb", limit := some 4 })] =
        .error (.valueError theQueryShapeMsg) :=
  ⟨rfl, rfl, rfl, rfl⟩

/-- Claim C1 as amended: on the Redis backend the builder methods bound to
`_raise_not_composable` (for example `text_search`) fail immediately when
invoked, naming the offending method; `find` fragments are accumulated
append-only, `build` never fails and returns every fragment in order (never
silently dropped or overwritten), and a query holding two or more Find
fragments fails at execute time, in `execute_query`, with a ValueError —
not at build time and not with NotComposableError. -/
theorem C1_amended_thm (client : RedisClient) (qb : QueryBuilderS)
    (a : FragArgs) (q : List (String × FragArgs))
    (h : 2 ≤ (getComp q "find").length) :
    qbTextSearch qb a = .error (.notComposable "text_search")
    ∧ qbFind qb a = .ok ⟨qb.queries ++ [("find", a)]⟩
    ∧ build ⟨qb.queries ++ [("find", a)]⟩ = qb.queries ++ [("find", a)]
    ∧ executeQuery client q = .error (.valueError theQueryShapeMsg) :=
  ⟨rfl, rfl, rfl, executeQuery_err_of_two_find client q h⟩

/-- Witness for C1_amended_thm at a concrete two-Find query. -/
theorem C1_amended_witness :
    2 ≤ (getComp [("find", ({ limit := none } : FragArgs)),
          ("find", ({ limit := none } : FragArgs))] "find").length
    ∧ (qbTextSearch ⟨[]⟩ { limit := none } =
        .error (.notComposable "text_search")
      ∧ qbFind ⟨[]⟩ { limit := none } = .ok ⟨[] ++ [("find", { limit := none })]⟩
      ∧ build ⟨[] ++ [("find", { limit := none })]⟩ =
          [] ++ [("find", { limit := none })]
      ∧ executeQuery (fun _ _ => [])
          [("find", ({ limit := none } : FragArgs)),
           ("find", ({ limit := none } : FragArgs))] =
          .error (.valueError theQueryShapeMsg)) :=
  ⟨by decide,
   C1_amended_thm (fun _ _ => []) ⟨[]⟩ { limit := none }
     [("find", { limit := none }), ("find", { limit := none })] (by decide)⟩

/-- Claim C6: a pure vector search is exactly the hybrid search with the
trivial match-all filter.  `_find` (redis.py lines 440-453) delegates to
`_hybrid_search` with `filter_query = '*'`, so for every client, query
vector, search field and limit the two return the same result. -/
theorem C6_thm (client : RedisClient) (query : List Int) (limit : Nat)
    (search_field : String) :
    findOp client query limit search_field =
      hybridSearch client query "*" search_field limit :=
  rfl

/-- Claim C10: fetch-by-id on the empty id sequence returns the empty result
without raising and without issuing any backend call: the trace of queried
keys is empty and the outcome is `ok []`, for every backend content. -/
theorem C10_thm (get : String → Option String) (keyPre : String) :
    getItems get keyPre [] = ([], .ok []) :=
  rfl

/-- Claim C4, counterexample.  The claim says that the limit of the first
fragment in precedence order that carries an explicit limit wins.  With the
Find fragment carrying the explicit limit 0 and the Filter fragment
carrying 5, the claim predicts 0 (`claimFirstExplicitLimit`), but the code
resolves 5 (`resolvedLimit` tests truthiness), and `execute_query`
accordingly issues a KNN query with limit 5. -/
theorem C4_counterexample :
    claimFirstExplicitLimit (some 0) (some 5) = 0
    ∧ resolvedLimit (some 0) (some 5) = 5
    ∧ executeQuery (fun rq _ => [⟨0, rq.qstring⟩])
        [("find", { query := [1], search_field := "emb", limit := some 0 }),
         ("filter", { filter_query := "@x", limit := some 5 })] =
        .ok { documents := ["@x=>[KNN 5 @emb $vec AS vector_score]"]
              scores := [0] } :=
  ⟨rfl, rfl, rfl⟩

/-- Claim C4 as amended: the executor resolves the effective limit as the
limit of the first fragment in declared-precedence order (Find before
Filter) that carries an explicit non-zero limit; an explicit limit of 0 is
treated like an absent one; if no fragment carries a non-zero limit, the
fixed default 10 applies. -/
theorem C4_amended_thm (client : RedisClient)
    (q : List (String × FragArgs)) (fA flA : FragArgs)
    (h1 : getComp q "find" = [fA]) (h2 : getComp q "filter" = [flA])
    (h3 : (keysOf q).length = 2) :
    resolvedLimit fA.limit flA.limit = amendedLimit fA.limit flA.limit
    ∧ executeQuery client q = .ok
      { documents := dictListToDocarray (hybridSearch client fA.query
          flA.filter_query fA.search_field
          (amendedLimit fA.limit flA.limit)).documents
        scores := (hybridSearch client fA.query flA.filter_query
          fA.search_field (amendedLimit fA.limit flA.limit)).scores } := by
  refine ⟨resolvedLimit_eq_amendedLimit _ _, ?_⟩
  rw [← resolvedLimit_eq_amendedLimit]
  exact executeQuery_decompose client q fA flA h1 h2 h3

/-- Witness for C4_amended_thm at a concrete query whose Find fragment
carries limit 7. -/
theorem C4_amended_witness :
    getComp [(("find", { limit := some 7 }) : String × FragArgs),
      ("filter", { limit := some 2 })] "find" = [{ limit := some 7 }]
    ∧ getComp [(("find", { limit := some 7 }) : String × FragArgs),
        ("filter", { limit := some 2 })] "filter" = [{ limit := some 2 }]
    ∧ (keysOf [(("find", { limit := some 7 }) : String × FragArgs),
        ("filter", { limit := some 2 })]).length = 2
    ∧ (resolvedLimit (some 7) (some 2) = amendedLimit (some 7) (some 2)
      ∧ executeQuery (fun _ _ => [])
          [("find", { limit := some 7 }), ("filter", { limit := some 2 })] =
        .ok { documents := dictListToDocarray (hybridSearch (fun _ _ => [])
                [] "" "" (amendedLimit (some 7) (some 2))).documents
              scores := (hybridSearch (fun _ _ => []) [] "" ""
                (amendedLimit (some 7) (some 2))).scores }) :=
  ⟨by decide, by decide, by decide,
   C4_amended_thm (fun _ _ => [])
     [("find", { limit := some 7 }), ("filter", { limit := some 2 })]
     { limit := some 7 } { limit := some 2 }
     (by decide) (by decide) (by decide)⟩

/-- Claim C9: when the Find fragment carries the explicit limit 0, limit
resolution tests truthiness, so the 0 is treated the same as an absent
limit: the effective limit falls through to the Filter fragment's limit, or
to the default 10 when that is also absent or 0. -/
theorem C9_thm (client : RedisClient) (q : List (String × FragArgs))
    (fA flA : FragArgs) (h1 : getComp q "find" = [fA])
    (h2 : getComp q "filter" = [flA]) (h3 : (keysOf q).length = 2)
    (h0 : fA.limit = some 0) :
    resolvedLimit fA.limit flA.limit = resolvedLimit none flA.limit
    ∧ executeQuery client q = .ok
      { documents := dictListToDocarray (hybridSearch client fA.query
          flA.filter_query fA.search_field
          (match flA.limit with
           | some m => if m ≠ 0 then m else 10
           | none => 10)).documents
        scores := (hybridSearch client fA.query flA.filter_query
          fA.search_field
          (match flA.limit with
           | some m => if m ≠ 0 then m else 10
           | none => 10)).scores } := by
  have hr : resolvedLimit fA.limit flA.limit =
      (match flA.limit with
       | some m => if m ≠ 0 then m else 10
       | none => 10) := by
    rw [h0]
    rcases flA.limit with _ | m
    · rfl
    · by_cases hm : m = 0 <;> simp [resolvedLimit, pyTruthy, hm]
  refine ⟨?_, ?_⟩
  · rw [hr]
    rcases flA.limit with _ | m
    · rfl
    · by_cases hm : m = 0 <;> simp [resolvedLimit, pyTruthy, hm]
  · rw [← hr]
    exact executeQuery_decompose client q fA flA h1 h2 h3

/-- Witness for C9_thm: Find carries limit 0, Filter carries limit 4; the
executed query uses limit 4. -/
theorem C9_witness :
    getComp [(("find", { limit := some 0 }) : String × FragArgs),
      ("filter", { limit := some 4 })] "find" = [{ limit := some 0 }]
    ∧ getComp [(("find", { limit := some 0 }) : String × FragArgs),
        ("filter", { limit := some 4 })] "filter" = [{ limit := some 4 }]
    ∧ (keysOf [(("find", { limit := some 0 }) : String × FragArgs),
        ("filter", { limit := some 4 })]).length = 2
    ∧ ({ limit := some 0 } : FragArgs).limit = some 0
    ∧ (resolvedLimit (some 0) (some 4) = resolvedLimit none (some 4)
      ∧ executeQuery (fun _ _ => [])
          [("find", { limit := some 0 }), ("filter", { limit := some 4 })] =
        .ok { documents := dictListToDocarray (hybridSearch (fun _ _ => [])
                [] "" "" 4).documents
              scores := (hybridSearch (fun _ _ => []) [] "" "" 4).scores }) :=
  ⟨by decide, by decide, by decide, rfl,
   C9_thm (fun _ _ => [])
     [("find", { limit := some 0 }), ("filter", { limit := some 4 })]
     { limit := some 0 } { limit := some 4 }
     (by decide) (by decide) (by decide) rfl⟩

theorem createIndexSchema_error_of_bad_metric
    (cols : List (String × ColumnInfo)) (c : String) (info : ColumnInfo)
    (s : String) (hmem : (c, info) ∈ cols)
    (hv : info.db_type = DBType.VectorFieldT)
    (hs : pyOrStr info.config.space info.config.distance = some s)
    (hbad : pyUpper s ∉ VALID_DISTANCES) :
    ∃ e, createIndexSchema cols = .error e := by
  induction cols with
  | nil => cases hmem
  | cons p rest ih =>
    obtain ⟨c0, i0⟩ := p
    simp only [createIndexSchema]
    rcases List.mem_cons.mp hmem with heq | hmem2
    · injection heq with h1 h2
      subst h1
      subst h2
      rw [hv, if_pos rfl]
      simp only [hs]
      rw [if_pos hbad]
      exact ⟨_, rfl⟩
    · obtain ⟨e, he⟩ := ih hmem2
      split
      · split
        · exact ⟨_, rfl⟩
        · split
          · exact ⟨_, rfl⟩
          · split
            · exact ⟨_, rfl⟩
            · exact ⟨e, by rw [he]; rfl⟩
      · exact ⟨e, by rw [he]; rfl⟩

/-- Claim C7: fetch-by-id on a non-empty id list queries the namespaced key
of every requested id, omits the ids that are not found and returns exactly
the documents that exist (in request order); when none of the requested ids
exists it fails with a KeyError whose message names the requested ids,
instead of returning an empty result. -/
theorem C7_thm (get : String → Option String) (keyPre : String)
    (ids : List String) (hne : ids ≠ []) :
    (getItems get keyPre ids).1 = ids.map (docKey keyPre)
    ∧ (ids.filterMap (fun i => get (docKey keyPre i)) ≠ [] →
        (getItems get keyPre ids).2 =
          .ok (ids.filterMap (fun i => get (docKey keyPre i)))
        ∧ ∀ d, d ∈ ids.filterMap (fun i => get (docKey keyPre i)) ↔
            ∃ i ∈ ids, get (docKey keyPre i) = some d)
    ∧ ((∀ i ∈ ids, get (docKey keyPre i) = none) →
        (getItems get keyPre ids).2 = .error (.keyError
          ("No document with id " ++ pyStrListRepr ids ++ " found"))) := by
  have hni : ¬(ids.isEmpty = true) := by
    simp only [List.isEmpty_iff]
    exact hne
  refine ⟨?_, ?_, ?_⟩
  · unfold getItems
    rw [if_neg hni]
  · intro hnz
    constructor
    · unfold getItems
      rw [if_neg hni]
      simp only
      rw [if_neg]
      intro h
      exact hnz (List.length_eq_zero.mp h)
    · intro d
      simp [List.mem_filterMap]
  · intro hnone
    have hd : ids.filterMap (fun i => get (docKey keyPre i)) = [] := by
      rw [List.filterMap_eq_nil_iff]
      exact hnone
    unfold getItems
    rw [if_neg hni]
    simp only [hd]
    rfl

/-- Witness for C7_thm: two requested ids of which none exists; the call
fails with the KeyError naming both ids. -/
theorem C7_witness :
    (["a", "b"] : List String) ≠ []
    ∧ ((getItems (fun _ => none) "idx:" ["a", "b"]).1 =
        (["a", "b"] : List String).map (docKey "idx:")
      ∧ ((["a", "b"] : List String).filterMap
            (fun i => (fun _ => (none : Option String)) (docKey "idx:" i)) ≠ [] →
          (getItems (fun _ => none) "idx:" ["a", "b"]).2 =
            .ok ((["a", "b"] : List String).filterMap
              (fun i => (fun _ => (none : Option String)) (docKey "idx:" i)))
          ∧ ∀ d, d ∈ (["a", "b"] : List String).filterMap
                (fun i => (fun _ => (none : Option String)) (docKey "idx:" i)) ↔
              ∃ i ∈ (["a", "b"] : List String),
                (fun _ => (none : Option String)) (docKey "idx:" i) = some d)
      ∧ ((∀ i ∈ (["a", "b"] : List String),
            (fun _ => (none : Option String)) (docKey "idx:" i) = none) →
          (getItems (fun _ => none) "idx:" ["a", "b"]).2 = .error (.keyError
            ("No document with id " ++ pyStrListRepr ["a", "b"] ++
              " found")))) :=
  ⟨by decide, C7_thm (fun _ => none) "idx:" ["a", "b"] (by decide)⟩

/-- Claim C8: in `_create_index`, the distance metric of a vector column is
normalized to uppercase and accepted exactly when the normalization is in
the allow-list L2/IP/COSINE: lowercase "cosine" is accepted and emitted as
COSINE in the field attributes; a metric outside the allow-list such as
"MANHATTAN" makes index creation fail with the invalid-metric ValueError,
so the backend create-index call (the `some schema` outcome) is never
issued and no partial index is created. -/
theorem C8_thm (cols : List (String × ColumnInfo)) (c : String)
    (info : ColumnInfo) (s : String) (hmem : (c, info) ∈ cols)
    (hv : info.db_type = DBType.VectorFieldT)
    (hs : pyOrStr info.config.space info.config.distance = some s)
    (hbad : pyUpper s ∉ VALID_DISTANCES) :
    (∃ e, createIndex false cols = .error e)
    ∧ createIndex false [("embedding", cosineCol)]
      = .ok (some [FieldSpec.vector "$.embedding" "FLAT"
          [("TYPE", AttrV.s "FLOAT32"), ("DIM", AttrV.n 4),
           ("DISTANCE_METRIC", AttrV.s "COSINE")] "embedding"])
    ∧ createIndex false [("embedding", manhattanCol)]
      = .error ("Invalid distance metric " ++ pyQuote "MANHATTAN" ++
          " provided. Must be one of: L2, IP, COSINE") := by
  refine ⟨?_, by decide, by decide⟩
  obtain ⟨e, he⟩ :=
    createIndexSchema_error_of_bad_metric cols c info s hmem hv hs hbad
  refine ⟨e, ?_⟩
  show (createIndexSchema cols).map some = .error e
  rw [he]
  rfl

/-- Witness for C8_thm at the MANHATTAN column. -/
theorem C8_witness :
    (("embedding", manhattanCol) ∈ [("embedding", manhattanCol)])
    ∧ manhattanCol.db_type = DBType.VectorFieldT
    ∧ pyOrStr manhattanCol.config.space manhattanCol.config.distance =
        some "MANHATTAN"
    ∧ pyUpper "MANHATTAN" ∉ VALID_DISTANCES
    ∧ ((∃ e, createIndex false [("embedding", manhattanCol)] = .error e)
      ∧ createIndex false [("embedding", cosineCol)]
        = .ok (some [FieldSpec.vector "$.embedding" "FLAT"
            [("TYPE", AttrV.s "FLOAT32"), ("DIM", AttrV.n 4),
             ("DISTANCE_METRIC", AttrV.s "COSINE")] "embedding"])
      ∧ createIndex false [("embedding", manhattanCol)]
        = .error ("Invalid distance metric " ++ pyQuote "MANHATTAN" ++
            " provided. Must be one of: L2, IP, COSINE")) :=
  ⟨by decide, rfl, rfl, by decide,
   C8_thm [("embedding", manhattanCol)] "embedding" manhattanCol
     "MANHATTAN" (by decide) rfl rfl (by decide)⟩

theorem executeQuery_ok_iff (client : RedisClient)
    (q : List (String × FragArgs)) :
    (∃ r, executeQuery client q = .ok r) ↔
      ((keysOf q).length = 2 ∧ (getComp q "find").length = 1 ∧
        (getComp q "filter").length = 1) := by
  unfold executeQuery
  split
  case isTrue h =>
    constructor
    · rintro ⟨r, hr⟩
      exact Except.noConfusion hr
    · intro hc
      rcases h with h | h | h
      · exact absurd hc.1 h
      · exact absurd hc.2.1 h
      · exact absurd hc.2.2 h
  case isFalse h =>
    push_neg at h
    constructor
    · intro _
      exact ⟨h.1, h.2.1, h.2.2⟩
    · intro _
      exact ⟨_, rfl⟩

theorem executeQuery_shape_char (q : List (String × FragArgs)) :
    ((keysOf q).length = 2 ∧ (getComp q "find").length = 1 ∧
      (getComp q "filter").length = 1) ↔
      ((getComp q "find").length = 1 ∧ (getComp q "filter").length = 1 ∧
        ∀ p ∈ q, p.1 = "find" ∨ p.1 = "filter") := by
  constructor
  · rintro ⟨h2, hf, hl⟩
    refine ⟨hf, hl, ?_⟩
    intro p hp
    have hfind : "find" ∈ keysOf q := by
      obtain ⟨v, hv⟩ := getComp_exists_of_length_pos q "find" (by omega)
      exact (keysOf_mem q "find").mpr ⟨v, hv⟩
    have hfil : "filter" ∈ keysOf q := by
      obtain ⟨v, hv⟩ := getComp_exists_of_length_pos q "filter" (by omega)
      exact (keysOf_mem q "filter").mpr ⟨v, hv⟩
    exact nodup_two_mem_char (keysOf_nodup q) h2 hfind hfil (by decide) p.1
      (mem_keysOf_of_mem q p hp)
  · rintro ⟨hf, hl, hall⟩
    refine ⟨?_, hf, hl⟩
    have hfind : "find" ∈ keysOf q := by
      obtain ⟨v, hv⟩ := getComp_exists_of_length_pos q "find" (by omega)
      exact (keysOf_mem q "find").mpr ⟨v, hv⟩
    have hfil : "filter" ∈ keysOf q := by
      obtain ⟨v, hv⟩ := getComp_exists_of_length_pos q "filter" (by omega)
      exact (keysOf_mem q "filter").mpr ⟨v, hv⟩
    apply nodup_two_mem_length (keysOf_nodup q) hfind hfil (by decide)
    intro x hx
    obtain ⟨v, hv⟩ := (keysOf_mem q x).mp hx
    exact hall (x, v) hv

/-- Claim C5, counterexample.  The claim says the error on a bad query
shape includes the required and the observed shape.  Two queries of
different observed shapes (two Find plus one Filter; a single Filter)
produce the identical, constant error message: the message states the
required shape only and cannot include the observed shape, so the claim is
false at these inputs. -/
theorem C5_counterexample :
    executeQuery (fun _ _ => [])
      [("find", { limit := none }), ("find", { limit := none }),
       ("filter", { limit := none })] =
      .error (.valueError theQueryShapeMsg)
    ∧ executeQuery (fun _ _ => []) [("filter", { limit := none })] =
        .error (.valueError theQueryShapeMsg)
    ∧ theQueryShapeMsg =
        "The query must contain exactly one \"find\" and \"filter\" components." :=
  ⟨rfl, rfl, rfl⟩

/-- Claim C5 as amended: execution succeeds exactly when the fragment
sequence contains exactly one Find fragment, exactly one Filter fragment
and no fragment of any other kind; any other combination fails with the
ValueError whose constant message states the required shape (but not the
observed one), and the error outcome does not depend on the backend client,
so no backend query is issued. -/
theorem C5_amended_thm (client : RedisClient)
    (q : List (String × FragArgs)) :
    ((∃ r, executeQuery client q = .ok r) ↔
      ((getComp q "find").length = 1 ∧ (getComp q "filter").length = 1 ∧
        ∀ p ∈ q, p.1 = "find" ∨ p.1 = "filter"))
    ∧ (∀ e, executeQuery client q = .error e →
        e = .valueError theQueryShapeMsg
        ∧ ∀ client2 : RedisClient, executeQuery client2 q = .error e) := by
  constructor
  · rw [executeQuery_ok_iff]
    exact executeQuery_shape_char q
  · intro e he
    have hcond : (keysOf q).length ≠ 2 ∨ (getComp q "find").length ≠ 1 ∨
        (getComp q "filter").length ≠ 1 := by
      by_contra hc
      push_neg at hc
      obtain ⟨r, hr⟩ := (executeQuery_ok_iff client q).mpr ⟨hc.1, hc.2.1, hc.2.2⟩
      rw [hr] at he
      exact Except.noConfusion he
    have hform : executeQuery client q = .error (.valueError theQueryShapeMsg) := by
      unfold executeQuery
      rw [if_pos hcond]
    rw [hform] at he
    injection he with he2
    constructor
    · exact he2.symm
    · intro client2
      rw [← he2]
      unfold executeQuery
      rw [if_pos hcond]

/-- Claim C2: on a bound view, a failing assignment to a mutable tensor
field leaves no observable mutation: whatever error the write raises
(validation failure, or the in-place buffer update failing), the view's
read of the field and the store's column slot are unchanged when the error
surfaces, and a non-broadcastable shape-mismatched value (its length
differs from the buffer's and it is not a NumPy-broadcastable singleton)
does make the in-place update fail with the shape-mismatch error
(re-raised, not swallowed).  The well-formed hypotheses say the bound
attribute aliases a live buffer that is the column's row. -/
theorem C2_thm (schema : String → FieldKind) (st : ViewState) (f : String)
    (v : RawValue) (hk : schema f = FieldKind.tensorK)
    (hwf : st.tAttr f < st.store.heap.length)
    (hcol : st.store.tensorCols f st.idx = st.tAttr f) :
    (∀ e st2, setattrStacked schema st f v = .err e st2 →
      getattrStacked schema st2 f = getattrStacked schema st f
      ∧ readColumn schema st2.store f st2.idx =
          readColumn schema st.store f st.idx
      ∧ st2.idx = st.idx)
    ∧ ∀ t, v = .tensorV t →
        (st.store.heap.getD (st.tAttr f) { data := [] }).data.length ≠
          t.data.length →
        t.data.length ≠ 1 →
        ∃ st2, setattrStacked schema st f v = .err .shapeMismatch st2 := by
  constructor
  · intro e st2 hset
    cases v with
    | tensorV t =>
      simp only [setattrStacked, hk, validateAssignment] at hset
      split at hset
      · exact SetResult.noConfusion hset
      · injection hset with he hst
        subst hst
        have hga : (st.store.heap ++ [t]).getD (st.tAttr f) { data := [] } =
            st.store.heap.getD (st.tAttr f) { data := [] } :=
          List.getD_append _ _ _ _ hwf
        refine ⟨?_, ?_, rfl⟩
        · simp only [getattrStacked, hk, updF, eq_self_iff_true, if_true]
          rw [hga]
        · simp only [readColumn, hk]
          rw [hcol, hga]
    | docV d =>
      simp only [setattrStacked, hk, validateAssignment] at hset
      injection hset with he hst
      subst hst
      exact ⟨rfl, rfl, rfl⟩
    | plainV s2 =>
      simp only [setattrStacked, hk, validateAssignment] at hset
      injection hset with he hst
      subst hst
      exact ⟨rfl, rfl, rfl⟩
  · intro t hv hne hone
    subst hv
    have hb : npBroadcastAssign
        (st.store.heap.getD (st.tAttr f) { data := [] }) t = none := by
      unfold npBroadcastAssign
      rw [if_neg (Ne.symm hne), if_neg hone]
    simp only [setattrStacked, hk, validateAssignment]
    rw [hb]
    exact ⟨_, rfl⟩

/-- Witness for C2_thm: assigning a length-3 tensor over the length-2
buffer of the sample view fails with shapeMismatch, and the view read and
column slot are unchanged afterwards. -/
theorem C2_witness :
    sampleSchema "t" = FieldKind.tensorK
    ∧ sampleView.tAttr "t" < sampleView.store.heap.length
    ∧ sampleView.store.tensorCols "t" sampleView.idx = sampleView.tAttr "t"
    ∧ ((∀ e st2, setattrStacked sampleSchema sampleView "t"
          (.tensorV { data := [1, 2, 3] }) = .err e st2 →
        getattrStacked sampleSchema st2 "t" =
            getattrStacked sampleSchema sampleView "t"
        ∧ readColumn sampleSchema st2.store "t" st2.idx =
            readColumn sampleSchema sampleView.store "t" sampleView.idx
        ∧ st2.idx = sampleView.idx)
      ∧ ∀ t, (RawValue.tensorV { data := [1, 2, 3] }) = .tensorV t →
          (sampleView.store.heap.getD (sampleView.tAttr "t")
            { data := [] }).data.length ≠ t.data.length →
          t.data.length ≠ 1 →
          ∃ st2, setattrStacked sampleSchema sampleView "t"
            (.tensorV { data := [1, 2, 3] }) = .err .shapeMismatch st2) :=
  ⟨rfl, by decide, rfl,
   C2_thm sampleSchema sampleView "t" (.tensorV { data := [1, 2, 3] })
     rfl (by decide) rfl⟩

theorem npBroadcastAssign_some_char (old new res : TensorVal)
    (h : npBroadcastAssign old new = some res) :
    (new.data.length = old.data.length → res = new)
    ∧ (new.data.length = 1 →
      res = { data := List.replicate old.data.length (new.data.getD 0 0) }) := by
  obtain ⟨od⟩ := old
  obtain ⟨nd⟩ := new
  unfold npBroadcastAssign at h
  split at h
  case isTrue hl =>
    injection h with h2
    subst h2
    constructor
    · intro _
      rfl
    · intro hone
      obtain ⟨x, hx⟩ := List.length_eq_one.mp hone
      subst hx
      simp only [List.length_singleton] at hl
      rw [← hl]
      rfl
  case isFalse hne =>
    split at h
    case isTrue hone2 =>
      injection h with h2
      subst h2
      constructor
      · intro hl
        exact absurd hl hne
      · intro _
        rfl
    case isFalse => exact Option.noConfusion h

/-- Claim C3, counterexample.  The claim says that after `v.f = x` succeeds,
the column slot and a subsequent read return the same value x.  Assigning
the singleton tensor [9] over the length-2 buffer of the sample view
succeeds — the in-place `old_value[:] = new_value` of document.py line 113
broadcasts a singleton over the buffer — but afterwards the buffer, hence
the view's read and the column slot, holds the broadcast [9, 9], which is
not the assigned value. -/
theorem C3_counterexample :
    ∃ st2,
      setattrStacked sampleSchema sampleView "t"
        (.tensorV { data := [9] }) = .ok st2
      ∧ getattrStacked sampleSchema st2 "t" = .tensorV { data := [9, 9] }
      ∧ readColumn sampleSchema st2.store "t" sampleView.idx =
          .tensorV { data := [9, 9] }
      ∧ getattrStacked sampleSchema st2 "t" ≠ .tensorV { data := [9] } :=
  ⟨_, rfl, rfl, rfl, by decide⟩

/-- Claim C3 as amended: on a bound view, after any successful write the
store's column slot, the view's subsequent read and the read of a fresh
view bound at the same index all agree; for nested-document and plain
fields they equal the assigned value x; for mutable tensor fields they
equal what the in-place NumPy assignment stored — x itself whenever x's
length matches the buffer's, and the buffer-filling broadcast of x when x
is a singleton.  The hypothesis is the binding invariant for tensor
fields: the view's attribute aliases the column's row buffer. -/
theorem C3_amended_thm (schema : String → FieldKind) (st : ViewState)
    (f : String) (v : RawValue)
    (hwf : schema f = FieldKind.tensorK →
      st.store.tensorCols f st.idx = st.tAttr f ∧
      st.tAttr f < st.store.heap.length) :
    ∀ st2, setattrStacked schema st f v = .ok st2 →
      st2.idx = st.idx
      ∧ getattrStacked schema st2 f = readColumn schema st2.store f st.idx
      ∧ getattrStacked schema (bindView st2.store st.idx) f =
          readColumn schema st2.store f st.idx
      ∧ (schema f = FieldKind.docK → getattrStacked schema st2 f = v)
      ∧ (schema f = FieldKind.plainK → getattrStacked schema st2 f = v)
      ∧ ∀ t, schema f = FieldKind.tensorK → v = .tensorV t →
          ((st.store.heap.getD (st.tAttr f) { data := [] }).data.length =
              t.data.length →
            getattrStacked schema st2 f = v)
          ∧ (t.data.length = 1 →
            getattrStacked schema st2 f = .tensorV
              { data :=
                  List.replicate
                    (st.store.heap.getD (st.tAttr f)
                      { data := [] }).data.length
                    (t.data.getD 0 0) }) := by
  intro st2 hset
  cases hsf : schema f with
  | tensorK =>
    obtain ⟨hcol, hlt⟩ := hwf hsf
    cases v with
    | tensorV t =>
      simp only [setattrStacked, hsf, validateAssignment] at hset
      cases hbc : npBroadcastAssign
          (st.store.heap.getD (st.tAttr f) { data := [] }) t with
      | some res =>
        rw [hbc] at hset
        injection hset with hst
        subst hst
        obtain ⟨hchar1, hchar2⟩ := npBroadcastAssign_some_char _ _ _ hbc
        have hlt2 : st.tAttr f < (st.store.heap ++ [t]).length := by
          rw [List.length_append]
          omega
        have hset2 : ((st.store.heap ++ [t]).set (st.tAttr f) res).getD
            (st.tAttr f) { data := [] } = res :=
          listGetD_set _ _ _ _ hlt2
        refine ⟨rfl, ?_, ?_, fun hdk => FieldKind.noConfusion hdk,
          fun hpk => FieldKind.noConfusion hpk, ?_⟩
        · simp only [getattrStacked, readColumn, hsf, updF,
            eq_self_iff_true, if_true]
          rw [hcol]
        · simp only [getattrStacked, bindView, readColumn, hsf]
        · intro t2 _ hvt
          injection hvt with ht2
          subst ht2
          constructor
          · intro hlen
            have hres : res = t := hchar1 hlen.symm
            simp only [getattrStacked, hsf, updF, eq_self_iff_true, if_true]
            rw [hset2, hres]
          · intro hone
            have hres := hchar2 hone
            simp only [getattrStacked, hsf, updF, eq_self_iff_true, if_true]
            rw [hset2, hres]
      | none =>
        rw [hbc] at hset
        exact SetResult.noConfusion hset
    | docV d =>
      simp only [setattrStacked, hsf, validateAssignment] at hset
      exact SetResult.noConfusion hset
    | plainV s2 =>
      simp only [setattrStacked, hsf, validateAssignment] at hset
      exact SetResult.noConfusion hset
  | docK =>
    cases v with
    | tensorV t =>
      simp only [setattrStacked, hsf, validateAssignment] at hset
      exact SetResult.noConfusion hset
    | docV d =>
      simp only [setattrStacked, hsf, validateAssignment] at hset
      cases hcs : docColSet (st.store.docCols f) st.idx d with
      | some newCol =>
        rw [hcs] at hset
        injection hset with hst
        subst hst
        have hin : st.idx < (st.store.docCols f).length := by
          unfold docColSet at hcs
          by_contra hno
          rw [if_neg hno] at hcs
          exact Option.noConfusion hcs
        have hnc : newCol = (st.store.docCols f).set st.idx d := by
          unfold docColSet at hcs
          rw [if_pos hin] at hcs
          injection hcs with h
          exact h.symm
        have hget : newCol.getD st.idx "" = d := by
          rw [hnc]
          exact listGetD_set _ _ _ _ hin
        refine ⟨rfl, ?_, ?_, fun _ => ?_,
          fun hpk => FieldKind.noConfusion hpk,
          fun t2 htk => FieldKind.noConfusion htk⟩
        · simp only [getattrStacked, readColumn, hsf, updF,
            eq_self_iff_true, if_true]
          rw [hget]
        · simp only [getattrStacked, bindView, readColumn, hsf]
        · simp only [getattrStacked, hsf, updF, eq_self_iff_true, if_true]
      | none =>
        rw [hcs] at hset
        exact SetResult.noConfusion hset
    | plainV s2 =>
      simp only [setattrStacked, hsf, validateAssignment] at hset
      exact SetResult.noConfusion hset
  | plainK =>
    cases v with
    | tensorV t =>
      simp only [setattrStacked, hsf, validateAssignment] at hset
      exact SetResult.noConfusion hset
    | docV d =>
      simp only [setattrStacked, hsf, validateAssignment] at hset
      exact SetResult.noConfusion hset
    | plainV s2 =>
      simp only [setattrStacked, hsf, validateAssignment] at hset
      injection hset with hst
      subst hst
      refine ⟨rfl, ?_, ?_, fun hdk => FieldKind.noConfusion hdk,
        fun _ => ?_, fun t2 htk => FieldKind.noConfusion htk⟩
      · simp only [getattrStacked, readColumn, hsf, eq_self_iff_true,
          and_self, if_true]
      · simp only [getattrStacked, bindView, readColumn, hsf,
          eq_self_iff_true, and_self, if_true]
      · simp only [getattrStacked, hsf, eq_self_iff_true, and_self, if_true]

/-- Witness for C3_amended_thm at the broadcast input: writing the
singleton tensor [9] into the sample view's length-2 "t" buffer. -/
theorem C3_amended_witness :
    (sampleSchema "t" = FieldKind.tensorK →
      sampleView.store.tensorCols "t" sampleView.idx = sampleView.tAttr "t" ∧
      sampleView.tAttr "t" < sampleView.store.heap.length)
    ∧ ∀ st2, setattrStacked sampleSchema sampleView "t"
        (.tensorV { data := [9] }) = .ok st2 →
      st2.idx = sampleView.idx
      ∧ getattrStacked sampleSchema st2 "t" =
          readColumn sampleSchema st2.store "t" sampleView.idx
      ∧ getattrStacked sampleSchema (bindView st2.store sampleView.idx) "t" =
          readColumn sampleSchema st2.store "t" sampleView.idx
      ∧ (sampleSchema "t" = FieldKind.docK →
          getattrStacked sampleSchema st2 "t" = .tensorV { data := [9] })
      ∧ (sampleSchema "t" = FieldKind.plainK →
          getattrStacked sampleSchema st2 "t" = .tensorV { data := [9] })
      ∧ ∀ t, sampleSchema "t" = FieldKind.tensorK →
          (RawValue.tensorV { data := [9] }) = .tensorV t →
          ((sampleView.store.heap.getD (sampleView.tAttr "t")
              { data := [] }).data.length = t.data.length →
            getattrStacked sampleSchema st2 "t" = .tensorV { data := [9] })
          ∧ (t.data.length = 1 →
            getattrStacked sampleSchema st2 "t" = .tensorV
              { data :=
                  List.replicate
                    (sampleView.store.heap.getD (sampleView.tAttr "t")
                      { data := [] }).data.length
                    (t.data.getD 0 0) }) :=
  ⟨fun _ => ⟨rfl, by decide⟩,
   C3_amended_thm sampleSchema sampleView "t" (.tensorV { data := [9] })
     (fun _ => ⟨rfl, by decide⟩)⟩

/-- Witness for C5_amended_thm at a concrete valid query and client. -/
theorem C5_amended_witness :
    ((∃ r, executeQuery (fun _ _ => [])
        [("find", { limit := none }), ("filter", { limit := none })] =
        .ok r) ↔
      ((getComp [("find", { limit := none }), ("filter", { limit := none })]
          "find").length = 1
        ∧ (getComp [("find", { limit := none }),
            ("filter", { limit := none })] "filter").length = 1
        ∧ ∀ p ∈ [("find", ({ limit := none } : FragArgs)),
            ("filter", ({ limit := none } : FragArgs))],
            p.1 = "find" ∨ p.1 = "filter"))
    ∧ (∀ e, executeQuery (fun _ _ => [])
          [("find", { limit := none }), ("filter", { limit := none })] =
          .error e →
        e = .valueError theQueryShapeMsg
        ∧ ∀ client2 : RedisClient, executeQuery client2
            [("find", { limit := none }), ("filter", { limit := none })] =
            .error e) :=
  C5_amended_thm (fun _ _ => [])
    [("find", { limit := none }), ("filter", { limit := none })]

end Docarray
